import Mathlib

/-!
Verification of the hoppie_connector library: a shallow embedding of the
ADS-C message parsing subsystem (`hoppie_connector.Messages`) and of the
connector facade (`hoppie_connector/__init__.py`), with theorems settling
the specified properties.

The connector facade (`HoppieConnector._connect`, `peek`, `poll`) is
embedded directly from `src/hoppie_connector/__init__.py`.  The message
parser module itself is not part of the provided sources (only its test
suite and its callers are), so the parser, renderer and response envelope
types are modelled from the specification, as marked in their doc
comments.
-/

namespace HoppieConn

/-! ## Field grammar utilities -/

/-- Modelled from the spec: token splitting of a packet body, splitting on
whitespace with leading/trailing whitespace ignored (`Messages` module is
not in the sources).  `cur` is the reversed accumulator of the token being
read. -/
def tokenizeAux : List Char → List Char → List String
  | [], cur => if cur.isEmpty then [] else [String.mk cur.reverse]
  | c :: cs, cur =>
    if c = ' ' then
      if cur.isEmpty then tokenizeAux cs []
      else String.mk cur.reverse :: tokenizeAux cs []
    else tokenizeAux cs (c :: cur)

/-- Modelled from the spec: split a packet body into whitespace-delimited
tokens. -/
def splitWs (s : String) : List String := tokenizeAux s.data []

/-- A decimal digit character. -/
def isDigitChar (c : Char) : Bool := 48 ≤ c.toNat && c.toNat ≤ 57

/-- Numeric value of a digit character. -/
def digitVal (c : Char) : Nat := c.toNat - 48

/-- Digit character of a value below ten. -/
def digitChar (d : Nat) : Char := Char.ofNat (48 + d)

/-- Modelled from the spec: parse a non-empty all-digit character list as a
natural number. -/
def parseNatChars (l : List Char) : Option Nat :=
  if l.isEmpty then none
  else if l.all isDigitChar then
    some (l.foldl (fun a c => 10 * a + digitVal c) 0)
  else none

/-- Modelled from the spec: parse an unsigned integer token. -/
def parseNat (s : String) : Option Nat := parseNatChars s.data

/-- Render the decimal digits of `n` in front of `acc` (most significant
first). -/
def natToCharsAux (n : Nat) (acc : List Char) : List Char :=
  if h : n = 0 then acc
  else natToCharsAux (n / 10) (digitChar (n % 10) :: acc)
termination_by n
decreasing_by exact Nat.div_lt_self (Nat.pos_of_ne_zero h) (by decide)

/-- Modelled from the spec: canonical decimal rendering of a natural
number. -/
def natToStr (n : Nat) : String :=
  if n = 0 then "0" else String.mk (natToCharsAux n [])

/-! ## Field parsers for report fields -/

/-- Split a token at the first `.`: integer part, and the fraction part
when a dot is present. -/
def splitDot : List Char → List Char × Option (List Char)
  | [] => ([], none)
  | c :: cs =>
    if c = '.' then ([], some cs)
    else
      match splitDot cs with
      | (ip, fr) => (c :: ip, fr)

/-- Modelled from the spec: parse an unsigned decimal-degree token
(`digits` optionally followed by `.` and fraction digits) as a rational. -/
def parseUnsignedDec (l : List Char) : Option Rat :=
  match splitDot l with
  | (ip, none) => (parseNatChars ip).map (fun n => (n : Rat))
  | (ip, some frac) =>
    match parseNatChars ip, parseNatChars frac with
    | some n, some f => some ((n : Rat) + (f : Rat) / (10 : Rat) ^ frac.length)
    | _, _ => none

/-- Modelled from the spec: parse a signed decimal-degree coordinate token
(optional sign, decimal degrees); only numeric validity is enforced. -/
def parseDecimal (s : String) : Option Rat :=
  match s.data with
  | '-' :: rest => (parseUnsignedDec rest).map (fun q => -q)
  | '+' :: rest => parseUnsignedDec rest
  | l => parseUnsignedDec l

/-- Modelled from the spec: parse a signed integer token (altitude in
feet). -/
def parseInt (s : String) : Option Int :=
  match s.data with
  | '-' :: rest => (parseNatChars rest).map (fun n => -(n : Int))
  | '+' :: rest => (parseNatChars rest).map (fun n => (n : Int))
  | l => (parseNatChars l).map (fun n => (n : Int))

/-- Modelled from the spec: validate a fixed 6-digit `HHMMSS` timestamp
token; fails on wrong length or non-digit content. -/
def parseTimestamp (s : String) : Option String :=
  if s.data.length = 6 && s.data.all isDigitChar then some s else none

/-! ## Message variant types (`Messages` module) -/

/-- Modelled from the spec: the ADS-C message variants.  The periodic
contract request carries the reporting interval in seconds; the
cancellation carries no payload; the periodic report carries callsign,
`HHMMSS` timestamp, signed decimal-degree coordinates and altitude in
feet. -/
inductive AdscMessage where
  | periodicContractRequest (interval : Nat)
  | periodicContractCancellation
  | periodicReport (callsign : String) (timestamp : String)
      (latitude : Rat) (longitude : Rat) (altitude : Int)
  deriving DecidableEq, Repr

/-- Modelled from the spec: the two parser error kinds — a body matching no
known keyword grammar, versus a keyword match whose fields fail
validation. -/
inductive ParseError where
  | unknownFormat
  | fieldValidation (reason : String)
  deriving DecidableEq, Repr

/-- Modelled from the spec: field validation of `REQUEST PERIODIC` once the
keywords committed the dispatcher; the remaining token must be a single
positive integer. -/
def parseRequestPeriodic : List String → Except ParseError AdscMessage
  | [t] =>
    match parseNat t with
    | some n =>
      if 0 < n then Except.ok (AdscMessage.periodicContractRequest n)
      else Except.error (ParseError.fieldValidation "invalid interval")
    | none => Except.error (ParseError.fieldValidation "invalid interval")
  | _ => Except.error (ParseError.fieldValidation "invalid interval")

/-- Modelled from the spec: field validation of the five `REPORT` payload
tokens (callsign, timestamp, latitude, longitude, altitude). -/
def parseReportFields (cs ts la lo al : String) : Except ParseError AdscMessage :=
  match parseTimestamp ts, parseDecimal la, parseDecimal lo, parseInt al with
  | some t, some lat, some lon, some alt =>
      Except.ok (AdscMessage.periodicReport cs t lat lon alt)
  | _, _, _, _ => Except.error (ParseError.fieldValidation "invalid report field")

/-- Modelled from the spec: `AdscMessageParser.from_packet`, the
keyword-and-arity driven dispatcher.  Sender and recipient are context
only and do not influence dispatch. -/
def from_packet (sender recipient body : String) : Except ParseError AdscMessage :=
  match splitWs body with
  | "REQUEST" :: "PERIODIC" :: rest => parseRequestPeriodic rest
  | ["REPORT", "CANCEL"] => Except.ok AdscMessage.periodicContractCancellation
  | ["REPORT", cs, ts, la, lo, al] => parseReportFields cs ts la lo al
  | _ => Except.error ParseError.unknownFormat

/-! ## Rendering -/

/-- Modelled from the spec: canonical rendering of a signed integer. -/
def intToStr (i : Int) : String :=
  if i < 0 then "-" ++ natToStr i.natAbs else natToStr i.natAbs

/-- Left-pad a digit list with zeros to four places. -/
def padFrac (l : List Char) : List Char := List.replicate (4 - l.length) '0' ++ l

/-- Modelled from the spec: canonical decimal-degree rendering of a
coordinate, with four fractional digits. -/
def formatDeg (q : Rat) : String :=
  let sign := if q < 0 then "-" else ""
  let a : Rat := |q|
  let ip : Nat := a.num.natAbs / a.den
  let fr : Nat := a.num.natAbs % a.den * 10000 / a.den
  sign ++ natToStr ip ++ "." ++ String.mk (padFrac (natToStr fr).data)

/-- Modelled from the spec: render a message back into its canonical
packet-body string (each variant owns its rendering). -/
def to_packet : AdscMessage → String
  | AdscMessage.periodicContractRequest i => "REQUEST PERIODIC " ++ natToStr i
  | AdscMessage.periodicContractCancellation => "REPORT CANCEL"
  | AdscMessage.periodicReport cs ts la lo al =>
      "REPORT " ++ cs ++ " " ++ ts ++ " " ++ formatDeg la ++ " " ++ formatDeg lo
        ++ " " ++ intToStr al

/-! ## Connector facade (`hoppie_connector/__init__.py`) -/

/-- An inbound record as delivered by the transport:
`{id: integer, packet: {from: string, to: string, body: string}}`. -/
structure MessageRecord where
  id : Nat
  fromStation : String
  toStation : String
  body : String
  deriving DecidableEq, Repr

/-- Modelled from the spec: the response envelope delivered by the API
(`Responses` module is not in the sources; the class hierarchy follows the
imported names `ErrorResponse`, `SuccessResponse`, `PeekSuccessResponse`,
`PollSuccessResponse`, `PingSuccessResponse`, where each specific success
response is a subclass of `SuccessResponse`). -/
inductive Response where
  | error (reason : String)
  | peekSuccess (data : List MessageRecord)
  | pollSuccess (data : List MessageRecord)
  | pingSuccess (stations : List String)
  | plainSuccess
  deriving DecidableEq, Repr

/-- The requested response type passed to `HoppieConnector._connect`. -/
inductive ResponseType where
  | errorT
  | successT
  | peekT
  | pollT
  | pingT
  deriving DecidableEq, Repr

/-- `isinstance(response, type)` over the modelled response hierarchy:
every success variant is an instance of `SuccessResponse`. -/
def Response.isInstance : Response → ResponseType → Bool
  | Response.error _, ResponseType.errorT => true
  | Response.peekSuccess _, ResponseType.peekT => true
  | Response.peekSuccess _, ResponseType.successT => true
  | Response.pollSuccess _, ResponseType.pollT => true
  | Response.pollSuccess _, ResponseType.successT => true
  | Response.pingSuccess _, ResponseType.pingT => true
  | Response.pingSuccess _, ResponseType.successT => true
  | Response.plainSuccess, ResponseType.successT => true
  | _, _ => false

/-- The exceptions `HoppieConnector._connect` can raise: `HoppieError`
carrying the reason of an `ErrorResponse`, or `TypeError` when the
response cannot be represented by the requested target type. -/
inductive ConnectError where
  | hoppie (reason : String)
  | typeErr
  deriving DecidableEq, Repr

/-- `HoppieConnector._connect`: raise `HoppieError` on an `ErrorResponse`,
return the response when it is an instance of the requested type, raise
`TypeError` otherwise (from `__init__.py`). -/
def connect (response : Response) (type : ResponseType) : Except ConnectError Response :=
  match response with
  | Response.error reason => Except.error (ConnectError.hoppie reason)
  | r =>
    if r.isInstance type then Except.ok r
    else Except.error ConnectError.typeErr

/-- The record loop of `HoppieConnector.peek`: each record is converted by
the factory; a record whose conversion raises `ValueError` is skipped with
a warning (from `__init__.py`).  The factory `create` stands for
`HoppieMessageFactory.create_from_data`, a collaborator outside the given
sources. -/
def peekLoop {μ : Type} (create : MessageRecord → Except String μ) :
    List MessageRecord → List (Nat × μ)
  | [] => []
  | d :: rest =>
    match create d with
    | Except.ok m => (d.id, m) :: peekLoop create rest
    | Except.error _ => peekLoop create rest

/-- The record loop of `HoppieConnector.poll`, analogous to the peek loop
but returning bare messages (from `__init__.py`). -/
def pollLoop {μ : Type} (create : MessageRecord → Except String μ) :
    List MessageRecord → List μ
  | [] => []
  | d :: rest =>
    match create d with
    | Except.ok m => m :: pollLoop create rest
    | Except.error _ => pollLoop create rest

/-- The record payload of a success response (`get_data`). -/
def Response.getData : Response → List MessageRecord
  | Response.peekSuccess d => d
  | Response.pollSuccess d => d
  | _ => []

/-- `HoppieConnector.peek`: connect requesting a `PeekSuccessResponse`,
then convert the records, skipping unparseable ones (from
`__init__.py`). -/
def peek {μ : Type} (create : MessageRecord → Except String μ)
    (response : Response) : Except ConnectError (List (Nat × μ)) :=
  (connect response ResponseType.peekT).map (fun r => peekLoop create r.getData)

/-- `HoppieConnector.poll`: connect requesting a `PollSuccessResponse`,
then convert the records, skipping unparseable ones (from
`__init__.py`). -/
def poll {μ : Type} (create : MessageRecord → Except String μ)
    (response : Response) : Except ConnectError (List μ) :=
  (connect response ResponseType.pollT).map (fun r => pollLoop create r.getData)

/-- The keyword patterns recognized by the dispatcher: a token list is
covered by some grammar's keyword pattern exactly when one of the
dispatcher's non-default arms applies. -/
def matchesKnownGrammar : List String → Bool
  | "REQUEST" :: "PERIODIC" :: _ => true
  | ["REPORT", "CANCEL"] => true
  | ["REPORT", _, _, _, _, _] => true
  | _ => false

/-! ### Groundwork lemmas about the field grammar -/

theorem tokenizeAux_nospace (t : List Char) :
    ∀ cur : List Char, (∀ c ∈ t, c ≠ ' ') →
      tokenizeAux t cur =
        if (cur.reverse ++ t).isEmpty then [] else [String.mk (cur.reverse ++ t)] := by
  induction t with
  | nil =>
    intro cur _
    simp [tokenizeAux, List.isEmpty_iff]
  | cons c cs ih =>
    intro cur h
    have hc : c ≠ ' ' := h c (List.mem_cons_self c cs)
    have hrest : ∀ x ∈ cs, x ≠ ' ' := fun x hx => h x (List.mem_cons_of_mem c hx)
    simp only [tokenizeAux, if_neg hc]
    rw [ih (c :: cur) hrest]
    simp

theorem natToCharsAux_acc (n : Nat) :
    ∀ acc : List Char, natToCharsAux n acc = natToCharsAux n [] ++ acc := by
  induction n using Nat.strong_induction_on with
  | _ n ih =>
    intro acc
    by_cases h : n = 0
    · simp [natToCharsAux, h]
    · have hlt : n / 10 < n := Nat.div_lt_self (Nat.pos_of_ne_zero h) (by decide)
      rw [natToCharsAux, dif_neg h, ih (n / 10) hlt (digitChar (n % 10) :: acc)]
      conv_rhs => rw [natToCharsAux, dif_neg h, ih (n / 10) hlt [digitChar (n % 10)]]
      simp

theorem isDigitChar_digitChar {d : Nat} (hd : d < 10) :
    isDigitChar (digitChar d) = true := by
  interval_cases d <;> decide

theorem digitVal_digitChar {d : Nat} (hd : d < 10) : digitVal (digitChar d) = d := by
  interval_cases d <;> decide

theorem natToCharsAux_digits (n : Nat) :
    ∀ c ∈ natToCharsAux n [], isDigitChar c = true := by
  induction n using Nat.strong_induction_on with
  | _ n ih =>
    intro c hc
    by_cases h : n = 0
    · simp [natToCharsAux, h] at hc
    · rw [natToCharsAux, dif_neg h, natToCharsAux_acc] at hc
      rcases List.mem_append.mp hc with h' | h'
      · exact ih (n / 10) (Nat.div_lt_self (Nat.pos_of_ne_zero h) (by decide)) c h'
      · rcases List.mem_singleton.mp h' with rfl
        exact isDigitChar_digitChar (Nat.mod_lt n (by decide))

theorem natToCharsAux_ne_nil {n : Nat} (h : n ≠ 0) : natToCharsAux n [] ≠ [] := by
  rw [natToCharsAux, dif_neg h, natToCharsAux_acc]
  simp

theorem foldl_natToCharsAux (n : Nat) :
    ∀ a : Nat,
      (natToCharsAux n []).foldl (fun x c => 10 * x + digitVal c) a =
        a * 10 ^ (natToCharsAux n []).length + n := by
  induction n using Nat.strong_induction_on with
  | _ n ih =>
    intro a
    by_cases h : n = 0
    · simp [natToCharsAux, h]
    · have hlt : n / 10 < n := Nat.div_lt_self (Nat.pos_of_ne_zero h) (by decide)
      have hstruct : natToCharsAux n [] =
          natToCharsAux (n / 10) [] ++ [digitChar (n % 10)] := by
        rw [natToCharsAux, dif_neg h, natToCharsAux_acc]
      rw [hstruct, List.foldl_append, List.length_append]
      simp only [List.foldl_cons, List.foldl_nil, List.length_cons, List.length_nil]
      rw [ih (n / 10) hlt a, digitVal_digitChar (Nat.mod_lt n (by decide))]
      have hdm : 10 * (n / 10) + n % 10 = n := Nat.div_add_mod n 10
      calc 10 * (a * 10 ^ (natToCharsAux (n / 10) []).length + n / 10) + n % 10
          = a * (10 ^ (natToCharsAux (n / 10) []).length * 10)
              + (10 * (n / 10) + n % 10) := by ring
        _ = a * 10 ^ ((natToCharsAux (n / 10) []).length + (0 + 1)) + n := by
            rw [hdm, Nat.pow_add]

theorem parseNat_natToStr (n : Nat) : parseNat (natToStr n) = some n := by
  by_cases h : n = 0
  · subst h; decide
  · rw [natToStr, if_neg h]
    show parseNatChars (natToCharsAux n []) = some n
    rw [parseNatChars,
      if_neg (by simpa [List.isEmpty_iff] using natToCharsAux_ne_nil h),
      if_pos (List.all_eq_true.mpr (natToCharsAux_digits n))]
    rw [foldl_natToCharsAux n 0]
    simp

theorem natToStr_digits (n : Nat) : ∀ c ∈ (natToStr n).data, isDigitChar c = true := by
  by_cases h : n = 0
  · subst h; decide
  · rw [natToStr, if_neg h]
    exact natToCharsAux_digits n

theorem natToStr_ne_nil (n : Nat) : (natToStr n).data ≠ [] := by
  by_cases h : n = 0
  · subst h; decide
  · rw [natToStr, if_neg h]
    exact natToCharsAux_ne_nil h

theorem isDigitChar_ne_space {c : Char} (h : isDigitChar c = true) : c ≠ ' ' := by
  intro hc; subst hc; simp [isDigitChar] at h

theorem splitWs_request_periodic (t : List Char) (ht : t ≠ [])
    (h : ∀ c ∈ t, c ≠ ' ') :
    tokenizeAux ('R' :: 'E' :: 'Q' :: 'U' :: 'E' :: 'S' :: 'T' :: ' ' :: 'P' ::
        'E' :: 'R' :: 'I' :: 'O' :: 'D' :: 'I' :: 'C' :: ' ' :: t) []
      = ["REQUEST", "PERIODIC", String.mk t] := by
  have hne : t.isEmpty = false := by simpa [List.isEmpty_iff] using ht
  simp [tokenizeAux, tokenizeAux_nospace t [] h, hne]

/-! ## Claim theorems -/

/-- C1: for every valid interval (`interval > 0`), rendering an
`AdscPeriodicContractRequestMessage` to a packet body and parsing that
body back yields a message equal to the original. -/
theorem periodic_request_roundtrip (sender recipient : String) (interval : Nat)
    (h : 0 < interval) :
    from_packet sender recipient
        (to_packet (AdscMessage.periodicContractRequest interval))
      = Except.ok (AdscMessage.periodicContractRequest interval) := by
  have hdigits : ∀ c ∈ (natToStr interval).data, c ≠ ' ' :=
    fun c hc => isDigitChar_ne_space (natToStr_digits interval c hc)
  have hne : (natToStr interval).data ≠ [] := natToStr_ne_nil interval
  have hsplit : splitWs (to_packet (AdscMessage.periodicContractRequest interval)) =
      ["REQUEST", "PERIODIC", natToStr interval] := by
    show splitWs ("REQUEST PERIODIC " ++ natToStr interval) = _
    have hd : ("REQUEST PERIODIC " ++ natToStr interval).data =
        'R' :: 'E' :: 'Q' :: 'U' :: 'E' :: 'S' :: 'T' :: ' ' :: 'P' :: 'E' ::
          'R' :: 'I' :: 'O' :: 'D' :: 'I' :: 'C' :: ' ' :: (natToStr interval).data := rfl
    rw [splitWs, hd, splitWs_request_periodic _ hne hdigits]
  rw [from_packet, hsplit]
  show parseRequestPeriodic [natToStr interval] = _
  rw [parseRequestPeriodic, parseNat_natToStr]
  simp [h]

/-- Witness for C1 at interval 120. -/
theorem periodic_request_roundtrip_witness :
    from_packet "ATC" "CALLSIGN"
        (to_packet (AdscMessage.periodicContractRequest 120))
      = Except.ok (AdscMessage.periodicContractRequest 120) :=
  periodic_request_roundtrip "ATC" "CALLSIGN" 120 (by decide)

/-- C2: the body `"REQUEST PERIODIC abc"` fails with a field-validation
error, not an unknown-format error; and once the `REQUEST PERIODIC`
keywords match, the dispatcher never falls through to the unknown-format
error. -/
theorem request_periodic_committed (sender recipient : String) :
    from_packet sender recipient "REQUEST PERIODIC abc"
        = Except.error (ParseError.fieldValidation "invalid interval") ∧
      ∀ body rest, splitWs body = "REQUEST" :: "PERIODIC" :: rest →
        from_packet sender recipient body ≠ Except.error ParseError.unknownFormat := by
  refine ⟨rfl, fun body rest hsplit => ?_⟩
  rw [from_packet, hsplit]
  show parseRequestPeriodic rest ≠ _
  match rest with
  | [] => simp [parseRequestPeriodic]
  | [t] =>
    rw [parseRequestPeriodic]
    cases parseNat t with
    | none => simp
    | some n =>
      by_cases hn : 0 < n <;> simp [hn]
  | _ :: _ :: _ => simp [parseRequestPeriodic]

/-- Witness for C2: both conjuncts of the committed-dispatch theorem at a
concrete sender, recipient and body. -/
theorem request_periodic_committed_witness :
    from_packet "ATC" "CALLSIGN" "REQUEST PERIODIC abc"
        = Except.error (ParseError.fieldValidation "invalid interval") ∧
      from_packet "ATC" "CALLSIGN" "REQUEST PERIODIC abc"
        ≠ Except.error ParseError.unknownFormat :=
  ⟨(request_periodic_committed "ATC" "CALLSIGN").1,
    (request_periodic_committed "ATC" "CALLSIGN").2
      "REQUEST PERIODIC abc" ["abc"] rfl⟩

/-- C3: every body whose tokens match no known keyword grammar — in
particular `"REQUEST EVENT"` — makes the parser fail with the recoverable
unknown-format error, distinct from a field-validation failure. -/
theorem unknown_keyword_unknown_format (sender recipient body : String)
    (h : matchesKnownGrammar (splitWs body) = false) :
    from_packet sender recipient body = Except.error ParseError.unknownFormat := by
  rw [from_packet]
  split
  · rename_i heq; rw [heq] at h; simp [matchesKnownGrammar] at h
  · rename_i heq; rw [heq] at h; simp [matchesKnownGrammar] at h
  · rename_i heq; rw [heq] at h; simp [matchesKnownGrammar] at h
  · rfl

/-- Witness for C3 at the body `"REQUEST EVENT"`. -/
theorem unknown_keyword_unknown_format_witness :
    from_packet "ATC" "CALLSIGN" "REQUEST EVENT"
      = Except.error ParseError.unknownFormat :=
  unknown_keyword_unknown_format "ATC" "CALLSIGN" "REQUEST EVENT" rfl

/-- C4: parsing `"REQUEST PERIODIC 120"` succeeds for any sender and
recipient and yields an `AdscPeriodicContractRequestMessage` with
interval 120. -/
theorem parse_request_periodic_120 (sender recipient : String) :
    from_packet sender recipient "REQUEST PERIODIC 120"
      = Except.ok (AdscMessage.periodicContractRequest 120) := rfl

/-- C5: parsing `"REPORT CALLSIGN 011820 -10.0000 10.00000 3000"`
succeeds and yields an `AdscPeriodicReportMessage` with callsign
`"CALLSIGN"`, timestamp `"011820"`, latitude `-10`, longitude `10` and
altitude `3000`. -/
theorem parse_periodic_report_example (sender recipient : String) :
    from_packet sender recipient "REPORT CALLSIGN 011820 -10.0000 10.00000 3000"
      = Except.ok (AdscMessage.periodicReport "CALLSIGN" "011820"
          (-10) 10 3000) := by
  have hsplit : splitWs "REPORT CALLSIGN 011820 -10.0000 10.00000 3000" =
      ["REPORT", "CALLSIGN", "011820", "-10.0000", "10.00000", "3000"] := rfl
  rw [from_packet, hsplit]
  show parseReportFields "CALLSIGN" "011820" "-10.0000" "10.00000" "3000" = _
  have hts : parseTimestamp "011820" = some "011820" := rfl
  have hla : parseDecimal "-10.0000" = some (-10 : Rat) := by
    simp [parseDecimal, parseUnsignedDec, splitDot, parseNatChars, digitVal, isDigitChar]
  have hlo : parseDecimal "10.00000" = some (10 : Rat) := by
    simp [parseDecimal, parseUnsignedDec, splitDot, parseNatChars, digitVal, isDigitChar]
  have hal : parseInt "3000" = some (3000 : Int) := rfl
  rw [parseReportFields, hts, hla, hlo, hal]

/-- C6: parsing `"REPORT CANCEL"` succeeds and yields an
`AdscPeriodicContractCancellationMessage`, which carries no payload. -/
theorem parse_report_cancel (sender recipient : String) :
    from_packet sender recipient "REPORT CANCEL"
      = Except.ok AdscMessage.periodicContractCancellation := rfl

theorem peekLoop_eq_filterMap {μ : Type}
    (create : MessageRecord → Except String μ) (data : List MessageRecord) :
    peekLoop create data = data.filterMap (fun d =>
      match create d with
      | Except.ok m => some (d.id, m)
      | Except.error _ => none) := by
  induction data with
  | nil => rfl
  | cons d rest ih =>
    rw [peekLoop, List.filterMap_cons]
    cases hd : create d <;> simp [hd, ih]

theorem pollLoop_eq_filterMap {μ : Type}
    (create : MessageRecord → Except String μ) (data : List MessageRecord) :
    pollLoop create data = data.filterMap (fun d => (create d).toOption) := by
  induction data with
  | nil => rfl
  | cons d rest ih =>
    rw [pollLoop, List.filterMap_cons]
    cases hd : create d <;> simp [hd, ih, Except.toOption]

/-- C7: in `peek` and `poll`, a record whose parsing fails is skipped
rather than aborting the call: both calls return an ordinary result list
(no per-record failure escapes), and the returned lists contain exactly
the messages parsed from the records that did not fail. -/
theorem peek_poll_skip_failed_records {μ : Type}
    (create : MessageRecord → Except String μ) (data : List MessageRecord) :
    peek create (Response.peekSuccess data) = Except.ok (peekLoop create data) ∧
      poll create (Response.pollSuccess data) = Except.ok (pollLoop create data) ∧
      (∀ i m, (i, m) ∈ peekLoop create data ↔
        ∃ d ∈ data, d.id = i ∧ create d = Except.ok m) ∧
      (∀ m, m ∈ pollLoop create data ↔ ∃ d ∈ data, create d = Except.ok m) := by
  refine ⟨rfl, rfl, fun i m => ?_, fun m => ?_⟩
  · rw [peekLoop_eq_filterMap]
    simp only [List.mem_filterMap]
    refine exists_congr fun d => and_congr_right fun _ => ?_
    cases hc : create d <;> simp [Prod.ext_iff]
  · rw [pollLoop_eq_filterMap]
    simp only [List.mem_filterMap]
    refine exists_congr fun d => and_congr_right fun _ => ?_
    cases hc : create d <;> simp [Except.toOption]

/-- C8: rendering is deterministic — two renderings of an equal message
produce identical packet-body strings (rendering and parsing are pure
functions of their inputs in this model). -/
theorem render_deterministic (m₁ m₂ : AdscMessage) (h : m₁ = m₂) :
    to_packet m₁ = to_packet m₂ := by rw [h]

/-- Witness for C8 at a concrete message pair. -/
theorem render_deterministic_witness :
    to_packet (AdscMessage.periodicContractRequest 120)
      = to_packet (AdscMessage.periodicContractRequest 120) :=
  render_deterministic (AdscMessage.periodicContractRequest 120)
    (AdscMessage.periodicContractRequest 120) rfl

/-- C9: `HoppieConnector._connect` either returns a response that is an
instance of the requested type, or raises `HoppieError` with the reason of
an `ErrorResponse`, or raises `TypeError` when the response is neither an
`ErrorResponse` nor of the requested type; it never returns a response of
a different type. -/
theorem connect_cases (response : Response) (type : ResponseType) :
    match connect response type with
    | Except.ok r => r = response ∧ r.isInstance type = true
    | Except.error (ConnectError.hoppie reason) => response = Response.error reason
    | Except.error ConnectError.typeErr =>
        response.isInstance type = false ∧
          ∀ reason, response ≠ Response.error reason := by
  cases response <;> cases type <;> simp [connect, Response.isInstance]

/-- C10: `peek` and `poll` preserve order: the returned lists are exactly
the in-order conversions of the successfully parsed records, each peek
entry pairs a record's id with the message parsed from that same record,
and the list lengths never exceed the number of records. -/
theorem peek_poll_preserve_order {μ : Type}
    (create : MessageRecord → Except String μ) (data : List MessageRecord) :
    peekLoop create data = data.filterMap (fun d =>
        match create d with
        | Except.ok m => some (d.id, m)
        | Except.error _ => none) ∧
      pollLoop create data = data.filterMap (fun d => (create d).toOption) ∧
      (peekLoop create data).length ≤ data.length ∧
      (pollLoop create data).length ≤ data.length := by
  refine ⟨peekLoop_eq_filterMap create data, pollLoop_eq_filterMap create data, ?_, ?_⟩
  · rw [peekLoop_eq_filterMap]; exact List.length_filterMap_le _ _
  · rw [pollLoop_eq_filterMap]; exact List.length_filterMap_le _ _

end HoppieConn
